import Mathlib

/-! MediaFactory (libsourcey, `src/media/src/mediafactory.cpp`)

A shallow embedding of the capture registry `scy::av::MediaFactory` and proofs
about its operations.

Modelling conventions
* A `shared_ptr` to a capture object is an index (`Ptr`) into the list of all
  capture objects allocated so far; `std::make_shared` appends to that list, so
  a new pointer is the old length of the list.
* `std::map<int, VideoCapture::Ptr>` is a key-ordered association list.
* `Signal::emit` appends to the trace `emitted`; the log macros append to `log`;
  every call the registry makes to a collaborator is recorded in `calls`.
* The collaborators that are not part of this file (the capture constructors,
  `open()`, `start()`, the device manager) are the fields of `Env`; their
  answers are fixed for the duration of one registry call and every registry
  call takes its own `Env`.
* A C++ call ends in one of three ways, see `Result`.
-/

namespace scy

/-- A `std::exception` with its `what()` text. -/
structure Exception where
  what : String
deriving DecidableEq, Repr

/-- Modelled from the spec: the error state of a capture handle
(`scy::Error`, declared outside this file); "empty = healthy". -/
structure Error where
  message : String
deriving DecidableEq, Repr

/-- The query `Error::any()`: the error state is not empty. -/
def Error.any (e : Error) : Bool := !(e.message == "")

/-- How a call ends: it returns a value, a C++ exception leaves it, or a failed
`assert` terminates the process. -/
inductive Result (α : Type) where
  | ok (value : α)
  | threw (exc : Exception)
  | aborted
deriving DecidableEq, Repr

/-- The two thread ids compared by `assert(Thread::mainID == Thread::currentID())`. -/
structure Thread where
  mainID : Nat
  currentID : Nat
deriving DecidableEq, Repr

namespace av

/-- Address of a heap-allocated capture object. -/
abbrev Ptr := Nat

/-- The only member of `Device` this file reads is `id`. -/
structure Device where
  id : Int
deriving DecidableEq, Repr

/-- A delegate attached to a capture's `Error` signal. -/
inductive Delegate where
  | onVideoCaptureError
deriving DecidableEq, Repr

/-- Modelled from the spec: a `VideoCapture` object, "carries a device identifier
(or source file path for file-backed captures), an error-state". `ErrorDelegates`
are the delegates attached to its `Error` signal. -/
structure VideoCapture where
  deviceId : Int
  filename : String
  error : Error
  ErrorDelegates : List Delegate
deriving DecidableEq, Repr

/-- The type `RtAudioFormat` is an unsigned integer code. -/
abbrev RtAudioFormat := Nat

/-- Modelled from the spec: an `AudioCapture` object, "constructible from
(device-id, channel count, sample rate, format code)". -/
structure AudioCapture where
  deviceId : Int
  channels : Int
  sampleRate : Int
  format : RtAudioFormat
deriving DecidableEq, Repr

/-- The signals of `MediaFactory`, each with the capture it carries. -/
inductive Signal where
  | VideoCaptureLoaded (capture : Ptr)
  | VideoCaptureError (capture : Ptr)
deriving DecidableEq, Repr

/-- The log statements of the file, with the values they print. -/
inductive LogLine where
  | loadingVideoCaptures
  | cannotLoadVideoCapture (deviceId : Int) (what : String)
  | reloadingFailedVideoCaptures
  | reloadingCapture (deviceId : Int) (error : Error)
  | captureInitializationError (what : String)
  | creatingVideoCapture (deviceId : Int)
  | createVideoFileCapture (file : String)
  | createAudioCapture (deviceId : Int)
deriving DecidableEq, Repr

/-- Address of a heap-allocated `AudioCapture` object, a type of its own: an
`AudioCapture::Ptr` cannot be stored in the map of `VideoCapture::Ptr`. -/
structure AudioPtr where
  index : Nat
deriving DecidableEq, Repr

/-- The calls the registry makes to its collaborators, with their arguments. -/
inductive Call where
  | getVideoCaptureDevices
  | newVideoCapture (deviceId : Int)
  | newFileCapture (file : String)
  | newAudioCapture (deviceId channels sampleRate : Int) (format : RtAudioFormat)
  | captureOpen (capture : Ptr)
  | captureStart (capture : Ptr)
deriving DecidableEq, Repr

/-- The log line written at the start of every `createVideoCapture` call. -/
def LogLine.isCreatingVideoCapture : LogLine → Bool
  | LogLine.creatingVideoCapture _ => true
  | _ => false

/-- The collaborators of the registry.
* `getVideoCaptureDevices`: what the device manager enumerates.
* `newVideoCapture id`: the constructor `VideoCapture(int)`, which opens and
  starts the device: it throws, or leaves the new object with an error state.
* `newFileCapture file`: the constructor `VideoCapture(const std::string&)`.
* `newAudioCapture`: the constructor of `AudioCapture`, which may throw.
* `captureOpen p c`, `captureStart p c`: `open()` and `start()` called on the
  object `c` at address `p`: the error state they leave and the exception they
  throw, if any. The device id of a capture is fixed at construction. -/
structure Env where
  getVideoCaptureDevices : List Device
  newVideoCapture : Int → Except Exception Error
  newFileCapture : String → Except Exception Error
  newAudioCapture : Int → Int → Int → RtAudioFormat → Option Exception
  captureOpen : Ptr → VideoCapture → Error × Option Exception
  captureStart : Ptr → VideoCapture → Error × Option Exception

/-- The `std::map<int, VideoCapture::Ptr>` of the registry, in key order. -/
abbrev CaptureMap := List (Int × Ptr)

/-- The lookup `std::map::find`: the value stored under `k`, `none` for `end()`. -/
def CaptureMap.find : CaptureMap → Int → Option Ptr
  | [], _ => none
  | (k1, p) :: rest, k => if k1 = k then some p else CaptureMap.find rest k

/-- The assignment `m[k] = p`: overwrite the entry of `k` or insert one at its
place in key order. -/
def CaptureMap.assign : CaptureMap → Int → Ptr → CaptureMap
  | [], k, p => [(k, p)]
  | (k1, p1) :: rest, k, p =>
    if k < k1 then (k, p) :: (k1, p1) :: rest
    else if k = k1 then (k, p) :: rest
    else (k1, p1) :: CaptureMap.assign rest k p

/-- The keys of a map are in strictly increasing order (the representation
invariant of `std::map`). -/
def CaptureMap.KeyOrdered (m : CaptureMap) : Prop :=
  (m.map Prod.fst).Pairwise (fun a b => a < b)

instance (m : CaptureMap) : Decidable (CaptureMap.KeyOrdered m) := by
  unfold CaptureMap.KeyOrdered
  infer_instance

/-- The registry and the part of the process it acts on: the map
`_videoCaptures`, the capture objects allocated so far (`heap` for
`VideoCapture`, `audioHeap` for `AudioCapture`), the signals emitted so far,
the log written so far and the calls made to the collaborators so far. -/
structure MediaFactory where
  _videoCaptures : CaptureMap
  heap : List VideoCapture
  audioHeap : List AudioCapture
  emitted : List Signal
  log : List LogLine
  calls : List Call
deriving DecidableEq, Repr

namespace MediaFactory

/-- A registry that tracks nothing, in a process that has allocated no capture. -/
def empty : MediaFactory :=
  { _videoCaptures := [], heap := [], audioHeap := [], emitted := [], log := [], calls := [] }

/-- Append one line to the log. -/
def write (s : MediaFactory) (l : LogLine) : MediaFactory :=
  { s with log := s.log ++ [l] }

/-- Record one call to a collaborator. -/
def call (s : MediaFactory) (c : Call) : MediaFactory :=
  { s with calls := s.calls ++ [c] }

/-- The call `signal.emit(this, capture)`. -/
def emit (s : MediaFactory) (sig : Signal) : MediaFactory :=
  { s with emitted := s.emitted ++ [sig] }

/-- Store a new error state in the capture object at `p`. -/
def setError (s : MediaFactory) (p : Ptr) (e : Error) : MediaFactory :=
  { s with heap := s.heap.modify (fun c => { c with error := e }) p }

/-- The statement `capture->Error += sdelegate(this, &MediaFactory::onVideoCaptureError)`. -/
def attach (s : MediaFactory) (p : Ptr) : MediaFactory :=
  let add := fun (c : VideoCapture) =>
    { c with ErrorDelegates := c.ErrorDelegates ++ [Delegate.onVideoCaptureError] }
  { s with heap := s.heap.modify add p }

/-- The accessor `videoCaptures()`: a copy of the map. -/
def videoCaptures (s : MediaFactory) : CaptureMap := s._videoCaptures

/-- The method `unloadVideoCaptures()`: `_videoCaptures.clear()`. -/
def unloadVideoCaptures (s : MediaFactory) : MediaFactory :=
  { s with _videoCaptures := [] }

/-- The method `createVideoCapture(deviceId)`. -/
def createVideoCapture (env : Env) (deviceId : Int) (s : MediaFactory) :
    MediaFactory × Result Ptr :=
  let s := s.write (LogLine.creatingVideoCapture deviceId)
  if deviceId < 0 then (s, Result.threw ⟨"Invalid video device ID"⟩)
  else
    match s._videoCaptures.find deviceId with
    | some p => (s, Result.ok p)
    | none =>
      let s := s.call (Call.newVideoCapture deviceId)
      match env.newVideoCapture deviceId with
      | Except.error exc => (s, Result.threw exc)
      | Except.ok err =>
        let capture : Ptr := s.heap.length
        let object : VideoCapture :=
          { deviceId := deviceId, filename := "", error := err, ErrorDelegates := [] }
        let s := { s with heap := s.heap ++ [object] }
        let s := { s with _videoCaptures := s._videoCaptures.assign deviceId capture }
        let s := s.emit (Signal.VideoCaptureLoaded capture)
        let s := s.attach capture
        (s, Result.ok capture)

/-- The loop of `loadVideoCaptures()`, with `n` iterations left. The loop
variable `i` does not occur in the body, which reads `devs[0]`. -/
def loadLoop (env : Env) (devs : List Device) : Nat → MediaFactory → MediaFactory
  | 0, s => s
  | n + 1, s =>
    match devs[0]? with
    | none => s
    | some d =>
      match createVideoCapture env d.id s with
      | (s1, Result.threw exc) =>
        loadLoop env devs n (s1.write (LogLine.cannotLoadVideoCapture d.id exc.what))
      | (s1, _) => loadLoop env devs n s1

/-- The method `loadVideoCaptures()`. -/
def loadVideoCaptures (env : Env) (th : Thread) (s : MediaFactory) :
    MediaFactory × Result Unit :=
  let s := s.write LogLine.loadingVideoCaptures
  if th.mainID ≠ th.currentID then (s, Result.aborted)
  else
    let s := s.call Call.getVideoCaptureDevices
    let devs := env.getVideoCaptureDevices
    (loadLoop env devs devs.length s, Result.ok ())

/-- One iteration of the loop of `reloadFailedVideoCaptures()`, for the entry
`kv` of the snapshot. -/
def reloadOne (env : Env) (s : MediaFactory) (kv : Int × Ptr) : MediaFactory :=
  match s.heap[kv.2]? with
  | none => s
  | some c =>
    if c.error.any then
      let s := s.write (LogLine.reloadingCapture c.deviceId c.error)
      let s := s.call (Call.captureOpen kv.2)
      match env.captureOpen kv.2 c with
      | (e1, some exc) =>
        (s.setError kv.2 e1).write (LogLine.captureInitializationError exc.what)
      | (e1, none) =>
        let s := (s.setError kv.2 e1).call (Call.captureStart kv.2)
        match env.captureStart kv.2 { c with error := e1 } with
        | (e2, some exc) =>
          (s.setError kv.2 e2).write (LogLine.captureInitializationError exc.what)
        | (e2, none) =>
          let s := s.setError kv.2 e2
          if !e2.any then s.emit (Signal.VideoCaptureLoaded kv.2) else s
    else s

/-- The method `reloadFailedVideoCaptures()`. -/
def reloadFailedVideoCaptures (env : Env) (th : Thread) (s : MediaFactory) :
    MediaFactory × Result Unit :=
  let s := s.write LogLine.reloadingFailedVideoCaptures
  if th.mainID ≠ th.currentID then (s, Result.aborted)
  else
    let videoCaptures := s.videoCaptures
    (videoCaptures.foldl (reloadOne env) s, Result.ok ())

/-- The callback `onVideoCaptureError(sender, err)`, `sender` being the address
of a capture object. The cast of a `sender` that is no such address is undefined
in C++; the model ends that call like a failed assertion. -/
def onVideoCaptureError (sender : Ptr) (_err : Error) (s : MediaFactory) :
    MediaFactory × Result Unit :=
  match s.heap[sender]? with
  | none => (s, Result.aborted)
  | some capture =>
    let videoCaptures := s.videoCaptures
    match videoCaptures.find capture.deviceId with
    | some p => (s.emit (Signal.VideoCaptureError p), Result.ok ())
    | none => (s, Result.aborted)

/-- The method `createFileCapture(file)`. A file-backed capture has no device;
its `deviceId` is `-1`. -/
def createFileCapture (env : Env) (file : String) (s : MediaFactory) :
    MediaFactory × Result Ptr :=
  let s := (s.write (LogLine.createVideoFileCapture file)).call (Call.newFileCapture file)
  match env.newFileCapture file with
  | Except.error exc => (s, Result.threw exc)
  | Except.ok err =>
    let object : VideoCapture :=
      { deviceId := -1, filename := file, error := err, ErrorDelegates := [] }
    ({ s with heap := s.heap ++ [object] }, Result.ok s.heap.length)

/-- The method `createAudioCapture(deviceId, channels, sampleRate, format)`. -/
def createAudioCapture (env : Env) (deviceId channels sampleRate : Int)
    (format : RtAudioFormat) (s : MediaFactory) : MediaFactory × Result AudioPtr :=
  let s := s.write (LogLine.createAudioCapture deviceId)
  if deviceId < 0 then (s, Result.threw ⟨"Invalid audio device ID"⟩)
  else
    let s := s.call (Call.newAudioCapture deviceId channels sampleRate format)
    match env.newAudioCapture deviceId channels sampleRate format with
    | some exc => (s, Result.threw exc)
    | none =>
      let object : AudioCapture :=
        { deviceId := deviceId, channels := channels, sampleRate := sampleRate, format := format }
      ({ s with audioHeap := s.audioHeap ++ [object] }, Result.ok ⟨s.audioHeap.length⟩)

/-- Collaborators that never fail: every constructor succeeds and leaves an
empty error state, `open()` and `start()` succeed and clear the error state;
three devices are attached. -/
def healthyEnv : Env :=
  { getVideoCaptureDevices := [⟨0⟩, ⟨1⟩, ⟨2⟩]
    newVideoCapture := fun _ => Except.ok ⟨""⟩
    newFileCapture := fun _ => Except.ok ⟨""⟩
    newAudioCapture := fun _ _ _ _ => none
    captureOpen := fun _ _ => (⟨""⟩, none)
    captureStart := fun _ _ => (⟨""⟩, none) }

/-- Collaborators that always fail: every constructor throws, `open()` and
`start()` throw and leave the capture in an error state. -/
def failingEnv : Env :=
  { getVideoCaptureDevices := [⟨0⟩, ⟨1⟩, ⟨2⟩]
    newVideoCapture := fun _ => Except.error ⟨"Cannot open the video capture device"⟩
    newFileCapture := fun _ => Except.error ⟨"Cannot open the video file"⟩
    newAudioCapture := fun _ _ _ _ => some ⟨"Cannot open the audio device"⟩
    captureOpen := fun _ _ => (⟨"unplugged"⟩, some ⟨"Cannot open the video capture device"⟩)
    captureStart := fun _ _ => (⟨"unplugged"⟩, some ⟨"Cannot start the video capture"⟩) }

/-- Collaborators for which only device 0 fails: three devices are attached,
the constructor throws for device 0 and succeeds for every other device. -/
def firstDeviceFailsEnv : Env :=
  { getVideoCaptureDevices := [⟨0⟩, ⟨1⟩, ⟨2⟩]
    newVideoCapture := fun deviceId =>
      if deviceId = 0 then Except.error ⟨"Cannot open the video capture device"⟩
      else Except.ok ⟨""⟩
    newFileCapture := fun _ => Except.ok ⟨""⟩
    newAudioCapture := fun _ _ _ _ => none
    captureOpen := fun _ _ => (⟨""⟩, none)
    captureStart := fun _ _ => (⟨""⟩, none) }

/-- A registry that tracks device 3 (handle 0, in error) and device 5 (handle 1,
healthy), and has allocated a third capture that it does not track. -/
def sampleFactory : MediaFactory :=
  { _videoCaptures := [(3, 0), (5, 1)]
    heap := [⟨3, "", ⟨"unplugged"⟩, [Delegate.onVideoCaptureError]⟩,
             ⟨5, "", ⟨""⟩, [Delegate.onVideoCaptureError]⟩,
             ⟨-1, "clip.avi", ⟨""⟩, []⟩]
    audioHeap := []
    emitted := [Signal.VideoCaptureLoaded 0, Signal.VideoCaptureLoaded 1]
    log := []
    calls := [] }

/-- A registry that tracks device 3 (handle 0) and device 5 (handle 1), both in
error. -/
def unpluggedFactory : MediaFactory :=
  { _videoCaptures := [(3, 0), (5, 1)]
    heap := [⟨3, "", ⟨"unplugged"⟩, [Delegate.onVideoCaptureError]⟩,
             ⟨5, "", ⟨"unplugged"⟩, [Delegate.onVideoCaptureError]⟩]
    audioHeap := []
    emitted := []
    log := []
    calls := [] }

/-- The thread the registry must be called from: the current thread is the
main thread. -/
def mainThread : Thread := { mainID := 1, currentID := 1 }

/-- Every pointer stored in the map is the address of an allocated object. -/
def Live (s : MediaFactory) : Prop :=
  ∀ kv ∈ s._videoCaptures, kv.2 < s.heap.length

instance (s : MediaFactory) : Decidable s.Live := by
  unfold Live
  infer_instance

/-- No capture object is stored under two keys. -/
def Unaliased (s : MediaFactory) : Prop :=
  (s._videoCaptures.map Prod.snd).Nodup

instance (s : MediaFactory) : Decidable s.Unaliased := by
  unfold Unaliased
  infer_instance

/-- The invariant of the registry: the map is in key order and the object
stored under key `k` is allocated and has device id `k`. -/
def Inv (s : MediaFactory) : Prop :=
  CaptureMap.KeyOrdered s._videoCaptures ∧
  ∀ kv ∈ s._videoCaptures, (s.heap.map VideoCapture.deviceId)[kv.2]? = some kv.1

instance (s : MediaFactory) : Decidable s.Inv := by
  unfold Inv
  infer_instance

/-- The states the registry can be in: it starts empty, its methods are called
with any arguments, from any thread and with any behaviour of the collaborators,
its error callback is invoked with any allocated capture as sender, and between
two calls the error state of any capture may change (a device is unplugged, a
holder of the handle reopens it). -/
inductive Reachable : MediaFactory → Prop where
  | init : Reachable empty
  | createVideoCapture (env : Env) (deviceId : Int) {s : MediaFactory} :
      Reachable s → Reachable (createVideoCapture env deviceId s).1
  | loadVideoCaptures (env : Env) (th : Thread) {s : MediaFactory} :
      Reachable s → Reachable (loadVideoCaptures env th s).1
  | reloadFailedVideoCaptures (env : Env) (th : Thread) {s : MediaFactory} :
      Reachable s → Reachable (reloadFailedVideoCaptures env th s).1
  | unloadVideoCaptures {s : MediaFactory} :
      Reachable s → Reachable (unloadVideoCaptures s)
  | createFileCapture (env : Env) (file : String) {s : MediaFactory} :
      Reachable s → Reachable (createFileCapture env file s).1
  | createAudioCapture (env : Env) (deviceId channels sampleRate : Int)
      (format : RtAudioFormat) {s : MediaFactory} :
      Reachable s → Reachable (createAudioCapture env deviceId channels sampleRate format s).1
  | onVideoCaptureError (sender : Ptr) (err : Error) {s : MediaFactory} :
      Reachable s → Reachable (onVideoCaptureError sender err s).1
  | captureError (p : Ptr) (e : Error) {s : MediaFactory} :
      Reachable s → Reachable (s.setError p e)

/-- In the words of the specification, "a successful reopen": called on the
capture `c` at address `p`, `open()` and `start()` both return without raising
and the error state is clear afterwards. -/
def reopens (env : Env) (p : Ptr) (c : VideoCapture) : Bool :=
  (env.captureOpen p c).2.isNone &&
  ((env.captureStart p { c with error := (env.captureOpen p c).1 }).2.isNone &&
   !(env.captureStart p { c with error := (env.captureOpen p c).1 }).1.any)

/-- The tracked entry `kv` holds a capture that is in an error state and whose
reopen succeeds. -/
def recovers (env : Env) (s : MediaFactory) (kv : Int × Ptr) : Bool :=
  match s.heap[kv.2]? with
  | none => false
  | some c => c.error.any && reopens env kv.2 c

/-- Modelled from the spec: `VideoCapture::open()` and `VideoCapture::start()`
are not part of this file; "a failed reopen leaves the error state set", that
is, an `open()` or `start()` that raises leaves the capture in an error state. -/
def FailureKeepsError (env : Env) : Prop :=
  ∀ (p : Ptr) (c : VideoCapture),
    ((env.captureOpen p c).2.isSome = true → (env.captureOpen p c).1.any = true) ∧
    ((env.captureStart p c).2.isSome = true → (env.captureStart p c).1.any = true)

/-! ## The map -/

theorem find_assign_self (m : CaptureMap) (k : Int) (p : Ptr) :
    (m.assign k p).find k = some p := by
  induction m with
  | nil => simp [CaptureMap.assign, CaptureMap.find]
  | cons kv rest ih =>
    obtain ⟨k1, p1⟩ := kv
    unfold CaptureMap.assign
    by_cases h1 : k < k1
    · simp [h1, CaptureMap.find]
    · by_cases h2 : k = k1
      · simp [h2, CaptureMap.find]
      · have h3 : ¬ k1 = k := fun h => h2 h.symm
        simp [h1, h2, h3, CaptureMap.find, ih]

theorem find_assign_ne (m : CaptureMap) (k j : Int) (p : Ptr) (hne : j ≠ k) :
    (m.assign k p).find j = m.find j := by
  have hkj : ¬ k = j := fun h => hne h.symm
  induction m with
  | nil => simp [CaptureMap.assign, CaptureMap.find, hkj]
  | cons kv rest ih =>
    obtain ⟨k1, p1⟩ := kv
    unfold CaptureMap.assign
    by_cases h1 : k < k1
    · simp [h1, CaptureMap.find, hkj]
    · by_cases h2 : k = k1
      · subst h2
        simp [CaptureMap.find, hkj]
      · simp [h1, h2, CaptureMap.find, ih]

theorem find_eq_none_iff (m : CaptureMap) (k : Int) :
    m.find k = none ↔ ∀ kv ∈ m, kv.1 ≠ k := by
  induction m with
  | nil => simp [CaptureMap.find]
  | cons kv rest ih =>
    obtain ⟨k1, p1⟩ := kv
    by_cases h : k1 = k
    · simp [CaptureMap.find, h]
    · simp [CaptureMap.find, h, ih]

theorem mem_of_find (m : CaptureMap) (k : Int) (p : Ptr) (h : m.find k = some p) :
    (k, p) ∈ m := by
  induction m with
  | nil => simp [CaptureMap.find] at h
  | cons kv rest ih =>
    obtain ⟨k1, p1⟩ := kv
    by_cases hk : k1 = k
    · simp [CaptureMap.find, hk] at h
      simp [hk, h]
    · simp [CaptureMap.find, hk] at h
      exact List.mem_cons_of_mem _ (ih h)

theorem assign_perm (m : CaptureMap) (k : Int) (p : Ptr) (h : m.find k = none) :
    List.Perm (m.assign k p) ((k, p) :: m) := by
  induction m with
  | nil => simp [CaptureMap.assign]
  | cons kv rest ih =>
    obtain ⟨k1, p1⟩ := kv
    have hk : ¬ k1 = k := by
      intro hk
      simp [CaptureMap.find, hk] at h
    have hk2 : ¬ k = k1 := fun e => hk e.symm
    have hrest : CaptureMap.find rest k = none := by
      simpa [CaptureMap.find, hk] using h
    unfold CaptureMap.assign
    by_cases h1 : k < k1
    · simp [h1]
    · simp only [h1, hk2, if_false]
      exact ((ih hrest).cons (k1, p1)).trans (List.Perm.swap _ _ _)

theorem mem_assign (m : CaptureMap) (k : Int) (p : Ptr) (h : m.find k = none)
    (kv : Int × Ptr) : kv ∈ m.assign k p ↔ kv = (k, p) ∨ kv ∈ m := by
  rw [(assign_perm m k p h).mem_iff]
  simp

theorem length_assign (m : CaptureMap) (k : Int) (p : Ptr) (h : m.find k = none) :
    (m.assign k p).length = m.length + 1 := by
  rw [(assign_perm m k p h).length_eq]
  simp

/-! ## createVideoCapture -/

theorem modify_length_append (f : VideoCapture → VideoCapture) (l : List VideoCapture)
    (x : VideoCapture) : List.modify f l.length (l ++ [x]) = l ++ [f x] := by
  rw [List.modify_eq_take_drop]
  simp

theorem createVideoCapture_neg (env : Env) (deviceId : Int) (s : MediaFactory)
    (h : deviceId < 0) :
    createVideoCapture env deviceId s =
      (s.write (LogLine.creatingVideoCapture deviceId),
        Result.threw ⟨"Invalid video device ID"⟩) := by
  simp [createVideoCapture, h]

theorem createVideoCapture_tracked (env : Env) (deviceId : Int) (s : MediaFactory)
    (h0 : 0 ≤ deviceId) (p : Ptr) (h : s._videoCaptures.find deviceId = some p) :
    createVideoCapture env deviceId s =
      (s.write (LogLine.creatingVideoCapture deviceId), Result.ok p) := by
  have h1 : ¬ deviceId < 0 := not_lt.mpr h0
  simp [createVideoCapture, h1, write, h]

theorem createVideoCapture_failed (env : Env) (deviceId : Int) (s : MediaFactory)
    (h0 : 0 ≤ deviceId) (h : s._videoCaptures.find deviceId = none) (exc : Exception)
    (hc : env.newVideoCapture deviceId = Except.error exc) :
    createVideoCapture env deviceId s =
      ((s.write (LogLine.creatingVideoCapture deviceId)).call (Call.newVideoCapture deviceId),
        Result.threw exc) := by
  have h1 : ¬ deviceId < 0 := not_lt.mpr h0
  simp [createVideoCapture, h1, write, call, h, hc]

theorem createVideoCapture_fresh (env : Env) (deviceId : Int) (s : MediaFactory)
    (h0 : 0 ≤ deviceId) (h : s._videoCaptures.find deviceId = none) (e : Error)
    (hc : env.newVideoCapture deviceId = Except.ok e) :
    createVideoCapture env deviceId s =
      ({ _videoCaptures := s._videoCaptures.assign deviceId s.heap.length
         heap := s.heap ++ [{ deviceId := deviceId, filename := "", error := e,
                              ErrorDelegates := [Delegate.onVideoCaptureError] }]
         audioHeap := s.audioHeap
         emitted := s.emitted ++ [Signal.VideoCaptureLoaded s.heap.length]
         log := s.log ++ [LogLine.creatingVideoCapture deviceId]
         calls := s.calls ++ [Call.newVideoCapture deviceId] },
        Result.ok s.heap.length) := by
  have h1 : ¬ deviceId < 0 := not_lt.mpr h0
  simp [createVideoCapture, h1, write, call, h, hc, emit, attach, modify_length_append]

/-- C1: for a device id `>= 0` whose capture can be constructed, two calls of
`createVideoCapture` in a row return the same handle, and the second call leaves
the map (hence its size), the allocated objects and the emitted signals as the
first call left them. -/
theorem createVideoCapture_idempotent (env1 env2 : Env) (deviceId : Int) (s : MediaFactory)
    (h0 : 0 ≤ deviceId) (hc : ∃ e, env1.newVideoCapture deviceId = Except.ok e) :
    ∃ p : Ptr,
      (createVideoCapture env1 deviceId s).2 = Result.ok p ∧
      (createVideoCapture env2 deviceId (createVideoCapture env1 deviceId s).1).2
        = Result.ok p ∧
      (createVideoCapture env2 deviceId (createVideoCapture env1 deviceId s).1).1._videoCaptures
        = (createVideoCapture env1 deviceId s).1._videoCaptures ∧
      (createVideoCapture env2 deviceId (createVideoCapture env1 deviceId s).1).1._videoCaptures.length
        = (createVideoCapture env1 deviceId s).1._videoCaptures.length ∧
      (createVideoCapture env2 deviceId (createVideoCapture env1 deviceId s).1).1.heap
        = (createVideoCapture env1 deviceId s).1.heap ∧
      (createVideoCapture env2 deviceId (createVideoCapture env1 deviceId s).1).1.emitted
        = (createVideoCapture env1 deviceId s).1.emitted := by
  obtain ⟨e, he⟩ := hc
  cases hf : s._videoCaptures.find deviceId with
  | some p =>
    refine ⟨p, ?_⟩
    rw [createVideoCapture_tracked env1 deviceId s h0 p hf]
    rw [createVideoCapture_tracked env2 deviceId _ h0 p (by simpa [write] using hf)]
    simp [write]
  | none =>
    refine ⟨s.heap.length, ?_⟩
    rw [createVideoCapture_fresh env1 deviceId s h0 hf e he]
    rw [createVideoCapture_tracked env2 deviceId _ h0 s.heap.length
      (by simp [find_assign_self])]
    simp [write]

/-- C1, on the empty registry with device 3. -/
theorem createVideoCapture_idempotent_witness :
    (0 : Int) ≤ 3 ∧ ∃ p : Ptr,
      (createVideoCapture healthyEnv 3 empty).2 = Result.ok p ∧
      (createVideoCapture healthyEnv 3 (createVideoCapture healthyEnv 3 empty).1).2
        = Result.ok p ∧
      (createVideoCapture healthyEnv 3 (createVideoCapture healthyEnv 3 empty).1).1._videoCaptures
        = (createVideoCapture healthyEnv 3 empty).1._videoCaptures ∧
      (createVideoCapture healthyEnv 3 (createVideoCapture healthyEnv 3 empty).1).1._videoCaptures.length
        = (createVideoCapture healthyEnv 3 empty).1._videoCaptures.length ∧
      (createVideoCapture healthyEnv 3 (createVideoCapture healthyEnv 3 empty).1).1.heap
        = (createVideoCapture healthyEnv 3 empty).1.heap ∧
      (createVideoCapture healthyEnv 3 (createVideoCapture healthyEnv 3 empty).1).1.emitted
        = (createVideoCapture healthyEnv 3 empty).1.emitted :=
  ⟨by decide, createVideoCapture_idempotent healthyEnv healthyEnv 3 empty (by decide)
    ⟨⟨""⟩, rfl⟩⟩

/-- C2: for a device id `< 0`, `createVideoCapture` and `createAudioCapture` throw
("Invalid video device ID", "Invalid audio device ID"), call no constructor and
allocate no capture object, emit no signal and leave the map as it was. -/
theorem create_negative_deviceId (env : Env) (deviceId channels sampleRate : Int)
    (format : RtAudioFormat) (s : MediaFactory) (h : deviceId < 0) :
    ((createVideoCapture env deviceId s).2 = Result.threw ⟨"Invalid video device ID"⟩ ∧
      (createVideoCapture env deviceId s).1._videoCaptures = s._videoCaptures ∧
      (createVideoCapture env deviceId s).1.heap = s.heap ∧
      (createVideoCapture env deviceId s).1.audioHeap = s.audioHeap ∧
      (createVideoCapture env deviceId s).1.emitted = s.emitted ∧
      (createVideoCapture env deviceId s).1.calls = s.calls) ∧
    ((createAudioCapture env deviceId channels sampleRate format s).2
        = Result.threw ⟨"Invalid audio device ID"⟩ ∧
      (createAudioCapture env deviceId channels sampleRate format s).1._videoCaptures
        = s._videoCaptures ∧
      (createAudioCapture env deviceId channels sampleRate format s).1.heap = s.heap ∧
      (createAudioCapture env deviceId channels sampleRate format s).1.audioHeap
        = s.audioHeap ∧
      (createAudioCapture env deviceId channels sampleRate format s).1.emitted
        = s.emitted ∧
      (createAudioCapture env deviceId channels sampleRate format s).1.calls
        = s.calls) := by
  constructor
  · rw [createVideoCapture_neg env deviceId s h]
    simp [write]
  · simp [createAudioCapture, h, write]

/-- C2, the scenario of the specification: on the empty registry
`createVideoCapture(-1)` throws and the map stays empty. -/
theorem create_negative_deviceId_witness :
    (-1 : Int) < 0 ∧
    (createVideoCapture healthyEnv (-1) empty).2 = Result.threw ⟨"Invalid video device ID"⟩ ∧
    (createVideoCapture healthyEnv (-1) empty).1._videoCaptures = [] ∧
    (createAudioCapture healthyEnv (-1) 2 44100 8 empty).2
      = Result.threw ⟨"Invalid audio device ID"⟩ ∧
    (createAudioCapture healthyEnv (-1) 2 44100 8 empty).1._videoCaptures = [] :=
  have h := create_negative_deviceId healthyEnv (-1) 2 44100 8 empty (by decide)
  ⟨by decide, h.1.1, h.1.2.1, h.2.1, h.2.2.1⟩

/-- C3: for a device id `>= 0`. If the id is not tracked and the constructor
succeeds, `createVideoCapture` returns a new handle (the address of an object
that did not exist before) whose `deviceId` is that id, the map becomes the old
map with exactly the entry `deviceId -> handle` added, and exactly one signal,
`VideoCaptureLoaded` with that handle, is emitted. If the id is tracked, the
tracked handle is returned, no signal is emitted, no constructor is called and
no object is allocated. -/
theorem createVideoCapture_spec (env : Env) (deviceId : Int) (s : MediaFactory)
    (h0 : 0 ≤ deviceId) :
    (∀ e : Error, s._videoCaptures.find deviceId = none →
      env.newVideoCapture deviceId = Except.ok e →
      (createVideoCapture env deviceId s).2 = Result.ok s.heap.length ∧
      s.heap[s.heap.length]? = none ∧
      (createVideoCapture env deviceId s).1.heap = s.heap ++
        [{ deviceId := deviceId, filename := "", error := e,
           ErrorDelegates := [Delegate.onVideoCaptureError] }] ∧
      (createVideoCapture env deviceId s).1._videoCaptures
        = s._videoCaptures.assign deviceId s.heap.length ∧
      (∀ k : Int, (createVideoCapture env deviceId s).1._videoCaptures.find k
        = if k = deviceId then some s.heap.length else s._videoCaptures.find k) ∧
      (∀ kv : Int × Ptr, kv ∈ (createVideoCapture env deviceId s).1._videoCaptures
        ↔ kv = (deviceId, s.heap.length) ∨ kv ∈ s._videoCaptures) ∧
      (createVideoCapture env deviceId s).1._videoCaptures.length
        = s._videoCaptures.length + 1 ∧
      (createVideoCapture env deviceId s).1.emitted
        = s.emitted ++ [Signal.VideoCaptureLoaded s.heap.length]) ∧
    (∀ p : Ptr, s._videoCaptures.find deviceId = some p →
      (createVideoCapture env deviceId s).2 = Result.ok p ∧
      (createVideoCapture env deviceId s).1.emitted = s.emitted ∧
      (createVideoCapture env deviceId s).1.heap = s.heap ∧
      (createVideoCapture env deviceId s).1._videoCaptures = s._videoCaptures ∧
      (createVideoCapture env deviceId s).1.calls = s.calls) := by
  constructor
  · intro e hf he
    rw [createVideoCapture_fresh env deviceId s h0 hf e he]
    refine ⟨rfl, by simp, rfl, rfl, ?_, ?_, ?_, rfl⟩
    · intro k
      by_cases hk : k = deviceId
      · simp [hk, find_assign_self]
      · simp [hk, find_assign_ne _ _ _ _ hk]
    · intro kv
      exact mem_assign _ _ _ hf kv
    · exact length_assign _ _ _ hf
  · intro p hf
    rw [createVideoCapture_tracked env deviceId s h0 p hf]
    simp [write]

/-- C3, on the empty registry with device 3: handle 0 is returned, stored under
key 3 and announced once; a second call announces nothing. -/
theorem createVideoCapture_spec_witness :
    (0 : Int) ≤ 3 ∧
    (createVideoCapture healthyEnv 3 empty).2 = Result.ok 0 ∧
    (createVideoCapture healthyEnv 3 empty).1._videoCaptures = [(3, 0)] ∧
    (createVideoCapture healthyEnv 3 empty).1.emitted = [Signal.VideoCaptureLoaded 0] :=
  have h := (createVideoCapture_spec healthyEnv 3 empty (by decide)).1 ⟨""⟩ rfl rfl
  ⟨by decide, h.1, h.2.2.2.1, h.2.2.2.2.2.2.2⟩

/-- C10: for an untracked device id `>= 0` whose constructor throws,
`createVideoCapture` lets that exception reach the caller, emits no signal,
allocates no object and leaves the map as it was, so the id stays untracked;
a later call in which the constructor succeeds constructs a new object and
returns its address. -/
theorem createVideoCapture_construction_failure (env env2 : Env) (deviceId : Int)
    (s : MediaFactory) (exc : Exception) (h0 : 0 ≤ deviceId)
    (hf : s._videoCaptures.find deviceId = none)
    (hc : env.newVideoCapture deviceId = Except.error exc) :
    (createVideoCapture env deviceId s).2 = Result.threw exc ∧
    (createVideoCapture env deviceId s).1.emitted = s.emitted ∧
    (createVideoCapture env deviceId s).1._videoCaptures = s._videoCaptures ∧
    (createVideoCapture env deviceId s).1.heap = s.heap ∧
    (createVideoCapture env deviceId s).1._videoCaptures.find deviceId = none ∧
    (∀ e : Error, env2.newVideoCapture deviceId = Except.ok e →
      (createVideoCapture env2 deviceId (createVideoCapture env deviceId s).1).2
        = Result.ok s.heap.length ∧
      (createVideoCapture env2 deviceId (createVideoCapture env deviceId s).1).1.heap
        = s.heap ++ [{ deviceId := deviceId, filename := "", error := e,
                       ErrorDelegates := [Delegate.onVideoCaptureError] }] ∧
      (createVideoCapture env2 deviceId (createVideoCapture env deviceId s).1).1.emitted
        = s.emitted ++ [Signal.VideoCaptureLoaded s.heap.length]) := by
  rw [createVideoCapture_failed env deviceId s h0 hf exc hc]
  refine ⟨rfl, rfl, rfl, rfl, hf, ?_⟩
  intro e he
  rw [createVideoCapture_fresh env2 deviceId _ h0 (by simpa [write, call] using hf) e he]
  simp [write, call]

/-- C10, on the empty registry with device 3: the failed call leaves the map
empty and the next call constructs handle 0. -/
theorem createVideoCapture_construction_failure_witness :
    (0 : Int) ≤ 3 ∧
    (createVideoCapture failingEnv 3 empty).2
      = Result.threw ⟨"Cannot open the video capture device"⟩ ∧
    (createVideoCapture failingEnv 3 empty).1.emitted = [] ∧
    (createVideoCapture failingEnv 3 empty).1._videoCaptures = [] ∧
    (createVideoCapture healthyEnv 3 (createVideoCapture failingEnv 3 empty).1).2
      = Result.ok 0 :=
  have h := createVideoCapture_construction_failure failingEnv healthyEnv 3 empty
    ⟨"Cannot open the video capture device"⟩ (by decide) rfl rfl
  ⟨by decide, h.1, h.2.1, h.2.2.1, (h.2.2.2.2.2 ⟨""⟩ rfl).1⟩

/-! ## unloadVideoCaptures, createFileCapture, createAudioCapture -/

/-- C8: after `unloadVideoCaptures()` the map is empty and `videoCaptures()`
returns the empty mapping; a `reloadFailedVideoCaptures()` run right after it,
from any thread and with any collaborators, calls `open()` or `start()` on no
capture (the calls made and the allocated objects are as before) and emits no
signal. -/
theorem unloadVideoCaptures_spec (env : Env) (th : Thread) (s : MediaFactory) :
    (unloadVideoCaptures s)._videoCaptures = [] ∧
    (unloadVideoCaptures s).videoCaptures = [] ∧
    (reloadFailedVideoCaptures env th (unloadVideoCaptures s)).1.emitted = s.emitted ∧
    (reloadFailedVideoCaptures env th (unloadVideoCaptures s)).1.heap = s.heap ∧
    (reloadFailedVideoCaptures env th (unloadVideoCaptures s)).1.calls = s.calls ∧
    (reloadFailedVideoCaptures env th (unloadVideoCaptures s)).1._videoCaptures = [] := by
  by_cases h : th.mainID = th.currentID <;>
    simp [unloadVideoCaptures, videoCaptures, reloadFailedVideoCaptures, write, h]

/-- C9: `createFileCapture` and `createAudioCapture` leave the map (hence its
keys, handles and size) and the emitted signals as they were, whatever the
arguments and however the call ends. When the constructor does not throw (and,
for audio, the device id is not negative) the call returns the address of an
object that was not allocated before, so it is no handle stored in the map (an
audio handle is of another type than the handles of the map), and a second call
with the same arguments returns a different address. -/
theorem createFileCapture_createAudioCapture_spec (env env2 : Env) (file : String)
    (deviceId channels sampleRate : Int) (format : RtAudioFormat) (s : MediaFactory)
    (hl : s.Live) :
    ((createFileCapture env file s).1._videoCaptures = s._videoCaptures ∧
      (createFileCapture env file s).1.emitted = s.emitted ∧
      (∀ e : Error, env.newFileCapture file = Except.ok e →
        (createFileCapture env file s).2 = Result.ok s.heap.length ∧
        (createFileCapture env file s).1.heap = s.heap ++ [⟨-1, file, e, []⟩]) ∧
      (∀ p : Ptr, (createFileCapture env file s).2 = Result.ok p →
        s.heap[p]? = none ∧ (∀ kv ∈ s._videoCaptures, kv.2 ≠ p) ∧
        (∀ q : Ptr, (createFileCapture env2 file (createFileCapture env file s).1).2
          = Result.ok q → q ≠ p))) ∧
    ((createAudioCapture env deviceId channels sampleRate format s).1._videoCaptures
        = s._videoCaptures ∧
      (createAudioCapture env deviceId channels sampleRate format s).1.emitted = s.emitted ∧
      (0 ≤ deviceId → env.newAudioCapture deviceId channels sampleRate format = none →
        (createAudioCapture env deviceId channels sampleRate format s).2
          = Result.ok ⟨s.audioHeap.length⟩ ∧
        (createAudioCapture env deviceId channels sampleRate format s).1.audioHeap
          = s.audioHeap ++ [⟨deviceId, channels, sampleRate, format⟩]) ∧
      (∀ p : AudioPtr,
        (createAudioCapture env deviceId channels sampleRate format s).2 = Result.ok p →
        s.audioHeap[p.index]? = none ∧
        (∀ q : AudioPtr, (createAudioCapture env2 deviceId channels sampleRate format
            (createAudioCapture env deviceId channels sampleRate format s).1).2
          = Result.ok q → q ≠ p))) := by
  refine ⟨⟨?_, ?_, ?_, ?_⟩, ⟨?_, ?_, ?_, ?_⟩⟩
  · unfold createFileCapture
    cases env.newFileCapture file <;> simp [write, call]
  · unfold createFileCapture
    cases env.newFileCapture file <;> simp [write, call]
  · intro e he
    simp [createFileCapture, he, write, call]
  · intro p hp
    unfold createFileCapture at hp ⊢
    cases h1 : env.newFileCapture file with
    | error exc => simp [h1] at hp
    | ok e =>
      simp only [h1, write, call, Result.ok.injEq] at hp
      subst hp
      refine ⟨by simp, ?_, ?_⟩
      · intro kv hkv
        exact Nat.ne_of_lt (hl kv hkv)
      · intro q hq
        cases h2 : env2.newFileCapture file with
        | error exc => simp [h2] at hq
        | ok e2 =>
          simp [h2, write, call] at hq
          rw [← hq]
          exact Nat.succ_ne_self _
  · unfold createAudioCapture
    by_cases hd : deviceId < 0
    · simp [hd, write]
    · cases env.newAudioCapture deviceId channels sampleRate format <;>
        simp [hd, write, call]
  · unfold createAudioCapture
    by_cases hd : deviceId < 0
    · simp [hd, write]
    · cases env.newAudioCapture deviceId channels sampleRate format <;>
        simp [hd, write, call]
  · intro h0 he
    have hd : ¬ deviceId < 0 := not_lt.mpr h0
    simp [createAudioCapture, hd, he, write, call]
  · intro p hp
    unfold createAudioCapture at hp ⊢
    by_cases hd : deviceId < 0
    · simp [hd] at hp
    · cases h1 : env.newAudioCapture deviceId channels sampleRate format with
      | some exc => simp [hd, h1] at hp
      | none =>
        simp only [hd, h1, write, call, if_false, Result.ok.injEq] at hp
        subst hp
        refine ⟨by simp, ?_⟩
        intro q hq
        cases h2 : env2.newAudioCapture deviceId channels sampleRate format with
        | some exc => simp [hd, h2] at hq
        | none =>
          simp [hd, h2, write, call] at hq
          intro hqe
          rw [← hq] at hqe
          simp at hqe

/-- C9, on a registry that tracks two devices: a file capture and an audio
capture are created, the map keeps its two entries, and the second file capture
gets another address than the first. -/
theorem createFileCapture_createAudioCapture_spec_witness :
    sampleFactory.Live ∧
    (createFileCapture healthyEnv "clip.avi" sampleFactory).1._videoCaptures
      = [(3, 0), (5, 1)] ∧
    (createFileCapture healthyEnv "clip.avi" sampleFactory).2 = Result.ok 3 ∧
    (createAudioCapture healthyEnv 0 2 44100 8 sampleFactory).1._videoCaptures
      = [(3, 0), (5, 1)] ∧
    (createAudioCapture healthyEnv 0 2 44100 8 sampleFactory).2 = Result.ok ⟨0⟩ :=
  have h := createFileCapture_createAudioCapture_spec healthyEnv healthyEnv "clip.avi"
    0 2 44100 8 sampleFactory (by decide)
  ⟨by decide, h.1.1, (h.1.2.2.1 ⟨""⟩ rfl).1, h.2.1, (h.2.2.2.1 (by decide) rfl).1⟩

/-! ## loadVideoCaptures -/

/-- C4 fails on the code: with the devices 0, 1 and 2 attached, every
constructor succeeding and the registry empty, `loadVideoCaptures()` called on
the main thread returns with device 0 as the only tracked device; devices 1 and
2 are not in the map, and the three creation attempts it logs are all for
device 0. -/
theorem loadVideoCaptures_tracks_first_device_only :
    healthyEnv.getVideoCaptureDevices = [⟨0⟩, ⟨1⟩, ⟨2⟩] ∧
    (loadVideoCaptures healthyEnv mainThread empty).2 = Result.ok () ∧
    (loadVideoCaptures healthyEnv mainThread empty).1._videoCaptures = [(0, 0)] ∧
    (loadVideoCaptures healthyEnv mainThread empty).1._videoCaptures.find 1 = none ∧
    (loadVideoCaptures healthyEnv mainThread empty).1._videoCaptures.find 2 = none ∧
    (loadVideoCaptures healthyEnv mainThread empty).1.log =
      [LogLine.loadingVideoCaptures, LogLine.creatingVideoCapture 0,
       LogLine.creatingVideoCapture 0, LogLine.creatingVideoCapture 0] := by
  refine ⟨rfl, ?_, ?_, ?_, ?_, ?_⟩ <;> decide

/-! ## The invariant of the registry -/

theorem mem_assign_sub (m : CaptureMap) (k : Int) (p : Ptr) (kv : Int × Ptr)
    (h : kv ∈ m.assign k p) : kv = (k, p) ∨ kv ∈ m := by
  induction m with
  | nil => simpa [CaptureMap.assign] using h
  | cons hd rest ih =>
    obtain ⟨k1, p1⟩ := hd
    unfold CaptureMap.assign at h
    by_cases h1 : k < k1
    · simpa [h1] using h
    · by_cases h2 : k = k1
      · subst h2
        simp only [h1, if_true, if_false, List.mem_cons] at h
        rcases h with h | h
        · exact Or.inl h
        · exact Or.inr (List.mem_cons_of_mem _ h)
      · simp only [h1, h2, if_false, List.mem_cons] at h
        rcases h with h | h
        · exact Or.inr (by simp [h])
        · rcases ih h with h3 | h3
          · exact Or.inl h3
          · exact Or.inr (List.mem_cons_of_mem _ h3)

theorem assign_keyOrdered (m : CaptureMap) (k : Int) (p : Ptr)
    (h : CaptureMap.KeyOrdered m) : CaptureMap.KeyOrdered (m.assign k p) := by
  induction m with
  | nil => simp [CaptureMap.assign, CaptureMap.KeyOrdered]
  | cons hd rest ih =>
    obtain ⟨k1, p1⟩ := hd
    unfold CaptureMap.KeyOrdered at h ih ⊢
    simp only [List.map_cons, List.pairwise_cons] at h
    obtain ⟨hlt, hrest⟩ := h
    unfold CaptureMap.assign
    by_cases h1 : k < k1
    · simp only [h1, if_true, List.map_cons, List.pairwise_cons]
      refine ⟨?_, hlt, hrest⟩
      intro a ha
      rcases List.mem_cons.mp ha with ha | ha
      · rw [ha]
        exact h1
      · exact lt_trans h1 (hlt a ha)
    · by_cases h2 : k = k1
      · subst h2
        simp only [h1, if_true, if_false, List.map_cons, List.pairwise_cons]
        exact ⟨hlt, hrest⟩
      · simp only [h1, h2, if_false, List.map_cons, List.pairwise_cons]
        refine ⟨?_, ih hrest⟩
        intro a ha
        obtain ⟨kv, hkv, rfl⟩ := List.mem_map.mp ha
        rcases mem_assign_sub rest k p kv hkv with h3 | h3
        · rw [h3]
          exact lt_of_le_of_ne (not_lt.mp h1) (fun e => h2 e.symm)
        · exact hlt kv.1 (List.mem_map.mpr ⟨kv, h3, rfl⟩)

theorem find_of_mem (m : CaptureMap) (h : CaptureMap.KeyOrdered m) (k : Int) (p : Ptr)
    (hm : (k, p) ∈ m) : m.find k = some p := by
  induction m with
  | nil => simp at hm
  | cons hd rest ih =>
    obtain ⟨k1, p1⟩ := hd
    unfold CaptureMap.KeyOrdered at h ih
    simp only [List.map_cons, List.pairwise_cons] at h
    obtain ⟨hlt, hrest⟩ := h
    rcases List.mem_cons.mp hm with he | he
    · injection he with hk hp
      simp [CaptureMap.find, hk, hp]
    · have hne : ¬ k1 = k := ne_of_lt (hlt k (List.mem_map.mpr ⟨(k, p), he, rfl⟩))
      simp only [CaptureMap.find, hne, if_false]
      exact ih hrest he

theorem map_deviceId_modify (f : VideoCapture → VideoCapture)
    (hf : ∀ c, (f c).deviceId = c.deviceId) (p : Nat) (l : List VideoCapture) :
    (List.modify f p l).map VideoCapture.deviceId = l.map VideoCapture.deviceId := by
  apply List.ext_getElem?
  intro n
  rw [List.getElem?_map, List.getElem?_map, List.getElem?_modify]
  cases l[n]? with
  | none => rfl
  | some c =>
    by_cases h : p = n <;> simp [h, hf]

theorem map_deviceId_modify_error (e : Error) (p : Nat) (l : List VideoCapture) :
    (List.modify (fun c => { c with error := e }) p l).map VideoCapture.deviceId
      = l.map VideoCapture.deviceId :=
  map_deviceId_modify (fun c => { c with error := e }) (fun _ => rfl) p l

theorem setError_deviceIds (s : MediaFactory) (p : Ptr) (e : Error) :
    (s.setError p e).heap.map VideoCapture.deviceId = s.heap.map VideoCapture.deviceId :=
  map_deviceId_modify_error e p s.heap

theorem inv_mono {s t : MediaFactory} (h : s.Inv)
    (hm : t._videoCaptures = s._videoCaptures)
    (hp : s.heap.map VideoCapture.deviceId <+: t.heap.map VideoCapture.deviceId) :
    t.Inv := by
  obtain ⟨ho, hk⟩ := h
  refine ⟨by rw [hm]; exact ho, ?_⟩
  intro kv hkv
  rw [hm] at hkv
  obtain ⟨r, hr⟩ := hp
  have h1 := hk kv hkv
  have hlt : kv.2 < (s.heap.map VideoCapture.deviceId).length :=
    (List.getElem?_eq_some.mp h1).1
  rw [← hr, List.getElem?_append_left hlt]
  exact h1

theorem inv_write {s : MediaFactory} (h : s.Inv) (l : LogLine) : (s.write l).Inv :=
  inv_mono h rfl (List.prefix_refl _)

theorem inv_call {s : MediaFactory} (h : s.Inv) (c : Call) : (s.call c).Inv :=
  inv_mono h rfl (List.prefix_refl _)

theorem inv_emit {s : MediaFactory} (h : s.Inv) (sig : Signal) : (s.emit sig).Inv :=
  inv_mono h rfl (List.prefix_refl _)

theorem inv_setError {s : MediaFactory} (h : s.Inv) (p : Ptr) (e : Error) :
    (s.setError p e).Inv :=
  inv_mono h rfl (by rw [setError_deviceIds])

theorem inv_createVideoCapture {s : MediaFactory} (h : s.Inv) (env : Env) (deviceId : Int) :
    (createVideoCapture env deviceId s).1.Inv := by
  by_cases hneg : deviceId < 0
  · rw [createVideoCapture_neg env deviceId s hneg]
    exact inv_write h _
  · have h0 : 0 ≤ deviceId := not_lt.mp hneg
    cases hf : s._videoCaptures.find deviceId with
    | some p =>
      rw [createVideoCapture_tracked env deviceId s h0 p hf]
      exact inv_write h _
    | none =>
      cases hc : env.newVideoCapture deviceId with
      | error exc =>
        rw [createVideoCapture_failed env deviceId s h0 hf exc hc]
        exact inv_call (inv_write h _) _
      | ok e =>
        rw [createVideoCapture_fresh env deviceId s h0 hf e hc]
        obtain ⟨ho, hk⟩ := h
        refine ⟨assign_keyOrdered _ _ _ ho, ?_⟩
        intro kv hkv
        simp only [List.map_append, List.map_cons, List.map_nil]
        rcases mem_assign_sub _ _ _ kv hkv with h3 | h3
        · rw [h3]
          have hlen : s.heap.length = (s.heap.map VideoCapture.deviceId).length := by simp
          simp only [hlen]
          exact List.getElem?_concat_length _ _
        · have h1 := hk kv h3
          have hlt : kv.2 < (s.heap.map VideoCapture.deviceId).length :=
            (List.getElem?_eq_some.mp h1).1
          rw [List.getElem?_append_left hlt]
          exact h1

theorem inv_loadLoop (env : Env) (devs : List Device) (n : Nat) :
    ∀ {s : MediaFactory}, s.Inv → (loadLoop env devs n s).Inv := by
  induction n with
  | zero => intro s h; exact h
  | succ n ih =>
    intro s h
    unfold loadLoop
    cases hd : devs[0]? with
    | none => exact h
    | some d =>
      have h1 := inv_createVideoCapture h env d.id
      simp only []
      split
      · next s1 exc heq =>
        rw [heq] at h1
        exact ih (inv_write h1 _)
      · next s1 r hne heq =>
        rw [heq] at h1
        exact ih h1

theorem inv_loadVideoCaptures {s : MediaFactory} (h : s.Inv) (env : Env) (th : Thread) :
    (loadVideoCaptures env th s).1.Inv := by
  unfold loadVideoCaptures
  by_cases hth : th.mainID = th.currentID
  · simp only [hth, ne_eq, not_true_eq_false, if_false]
    exact inv_loadLoop _ _ _ (inv_call (inv_write h _) _)
  · simp only [hth, ne_eq, not_false_eq_true, if_true]
    exact inv_write h _

theorem reloadOne_videoCaptures (env : Env) (s : MediaFactory) (kv : Int × Ptr) :
    (reloadOne env s kv)._videoCaptures = s._videoCaptures := by
  unfold reloadOne
  repeat' split
  all_goals simp [write, call, setError, emit]

theorem reloadOne_deviceIds (env : Env) (s : MediaFactory) (kv : Int × Ptr) :
    (reloadOne env s kv).heap.map VideoCapture.deviceId
      = s.heap.map VideoCapture.deviceId := by
  unfold reloadOne
  repeat' split
  all_goals simp only [write, call, emit, setError, map_deviceId_modify_error]

theorem inv_reloadOne {s : MediaFactory} (h : s.Inv) (env : Env) (kv : Int × Ptr) :
    (reloadOne env s kv).Inv :=
  inv_mono h (reloadOne_videoCaptures env s kv) (by rw [reloadOne_deviceIds])

theorem inv_foldl_reloadOne (env : Env) (l : List (Int × Ptr)) :
    ∀ {s : MediaFactory}, s.Inv → (l.foldl (reloadOne env) s).Inv := by
  induction l with
  | nil => intro s h; exact h
  | cons kv rest ih =>
    intro s h
    exact ih (inv_reloadOne h env kv)

theorem inv_reloadFailedVideoCaptures {s : MediaFactory} (h : s.Inv) (env : Env)
    (th : Thread) : (reloadFailedVideoCaptures env th s).1.Inv := by
  unfold reloadFailedVideoCaptures
  by_cases hth : th.mainID = th.currentID
  · simp only [hth, ne_eq, not_true_eq_false, if_false]
    exact inv_foldl_reloadOne _ _ (inv_write h _)
  · simp only [hth, ne_eq, not_false_eq_true, if_true]
    exact inv_write h _

theorem inv_unloadVideoCaptures (s : MediaFactory) : (unloadVideoCaptures s).Inv :=
  ⟨by simp [unloadVideoCaptures, CaptureMap.KeyOrdered], by simp [unloadVideoCaptures]⟩

theorem inv_createFileCapture {s : MediaFactory} (h : s.Inv) (env : Env) (file : String) :
    (createFileCapture env file s).1.Inv := by
  unfold createFileCapture
  cases env.newFileCapture file with
  | error exc => exact inv_call (inv_write h _) _
  | ok e => exact inv_mono h rfl (by simp [write, call])

theorem inv_createAudioCapture {s : MediaFactory} (h : s.Inv) (env : Env)
    (deviceId channels sampleRate : Int) (format : RtAudioFormat) :
    (createAudioCapture env deviceId channels sampleRate format s).1.Inv := by
  unfold createAudioCapture
  by_cases hneg : deviceId < 0
  · simp only [hneg, if_true]
    exact inv_write h _
  · simp only [hneg, if_false]
    cases env.newAudioCapture deviceId channels sampleRate format with
    | some exc => exact inv_call (inv_write h _) _
    | none => exact inv_mono h rfl (List.prefix_refl _)

theorem inv_onVideoCaptureError {s : MediaFactory} (h : s.Inv) (sender : Ptr) (err : Error) :
    (onVideoCaptureError sender err s).1.Inv := by
  unfold onVideoCaptureError
  cases s.heap[sender]? with
  | none => exact h
  | some c =>
    simp only []
    cases (videoCaptures s).find c.deviceId with
    | none => exact h
    | some p => exact inv_emit h _

theorem inv_of_reachable {s : MediaFactory} (h : Reachable s) : s.Inv := by
  induction h with
  | init => exact ⟨by simp [empty, CaptureMap.KeyOrdered], by simp [empty]⟩
  | createVideoCapture env deviceId _ ih => exact inv_createVideoCapture ih env deviceId
  | loadVideoCaptures env th _ ih => exact inv_loadVideoCaptures ih env th
  | reloadFailedVideoCaptures env th _ ih => exact inv_reloadFailedVideoCaptures ih env th
  | unloadVideoCaptures _ _ => exact inv_unloadVideoCaptures _
  | createFileCapture env file _ ih => exact inv_createFileCapture ih env file
  | createAudioCapture env deviceId channels sampleRate format _ ih =>
    exact inv_createAudioCapture ih env deviceId channels sampleRate format
  | onVideoCaptureError sender err _ ih => exact inv_onVideoCaptureError ih sender err
  | captureError p e _ ih => exact inv_setError ih p e

theorem live_of_inv {s : MediaFactory} (h : s.Inv) : s.Live := by
  intro kv hkv
  have h1 := h.2 kv hkv
  have hlt := (List.getElem?_eq_some.mp h1).1
  simpa using hlt

theorem unaliased_of_inv {s : MediaFactory} (h : s.Inv) : s.Unaliased := by
  obtain ⟨ho, hk⟩ := h
  unfold Unaliased List.Nodup
  unfold CaptureMap.KeyOrdered at ho
  rw [List.pairwise_map] at ho ⊢
  refine List.Pairwise.imp_of_mem ?_ ho
  intro a b ha hb hlt heq
  have h1 := hk a ha
  have h2 := hk b hb
  rw [heq, h2] at h1
  exact absurd (Option.some.inj h1).symm (ne_of_lt hlt)

/-- Every reachable state of the registry satisfies the hypotheses `Live` and
`Unaliased` used below. -/
theorem live_unaliased_of_reachable {s : MediaFactory} (h : Reachable s) :
    s.Live ∧ s.Unaliased :=
  ⟨live_of_inv (inv_of_reachable h), unaliased_of_inv (inv_of_reachable h)⟩

/-! ## One iteration of the reload sweep -/

theorem reloadOne_of_none (env : Env) (s : MediaFactory) (kv : Int × Ptr)
    (h : s.heap[kv.2]? = none) : reloadOne env s kv = s := by
  unfold reloadOne
  simp [h]

theorem reloadOne_of_healthy (env : Env) (s : MediaFactory) (kv : Int × Ptr)
    (c : VideoCapture) (h : s.heap[kv.2]? = some c) (hc : c.error.any = false) :
    reloadOne env s kv = s := by
  unfold reloadOne
  simp [h, hc]

theorem reloadOne_emitted (env : Env) (s : MediaFactory) (kv : Int × Ptr) :
    (reloadOne env s kv).emitted
      = s.emitted ++ (if recovers env s kv then [Signal.VideoCaptureLoaded kv.2] else []) := by
  unfold reloadOne recovers reopens
  cases h : s.heap[kv.2]? with
  | none => simp
  | some c =>
    by_cases hc : c.error.any = true
    · rcases hop : env.captureOpen kv.2 c with ⟨e1, r1⟩
      cases r1 with
      | some exc => simp [hc, hop, write, call, setError]
      | none =>
        rcases hst : env.captureStart kv.2 { c with error := e1 } with ⟨e2, r2⟩
        cases r2 with
        | some exc => simp [hc, hop, hst, write, call, setError]
        | none =>
          by_cases he : e2.any = true
          · simp [hc, hop, hst, he, write, call, setError]
          · simp [hc, hop, hst, he, write, call, setError, emit]
    · simp [hc]

theorem reloadOne_heap_ne (env : Env) (s : MediaFactory) (kv : Int × Ptr) (p : Ptr)
    (hne : p ≠ kv.2) : (reloadOne env s kv).heap[p]? = s.heap[p]? := by
  have hne2 : kv.2 ≠ p := fun e => hne e.symm
  unfold reloadOne
  repeat' split
  all_goals simp [write, call, setError, emit, List.getElem?_modify_ne, hne2]

theorem reloadOne_heap_self (env : Env) (s : MediaFactory) (kv : Int × Ptr)
    (c : VideoCapture) (h : s.heap[kv.2]? = some c) (hc : c.error.any = true) :
    (reloadOne env s kv).heap[kv.2]? = some
      { c with error :=
          if (env.captureOpen kv.2 c).2.isSome then (env.captureOpen kv.2 c).1
          else (env.captureStart kv.2 { c with error := (env.captureOpen kv.2 c).1 }).1 } := by
  unfold reloadOne
  rcases hop : env.captureOpen kv.2 c with ⟨e1, r1⟩
  cases r1 with
  | some exc => simp [h, hc, hop, write, call, setError]
  | none =>
    rcases hst : env.captureStart kv.2 { c with error := e1 } with ⟨e2, r2⟩
    cases r2 with
    | some exc => simp [h, hc, hop, hst, write, call, setError]
    | none =>
      by_cases he : e2.any = true
      · simp [h, hc, hop, hst, he, write, call, setError]
      · simp [h, hc, hop, hst, he, write, call, setError, emit]

theorem reloadOne_calls (env : Env) (s : MediaFactory) (kv : Int × Ptr) :
    ∃ new : List Call, (reloadOne env s kv).calls = s.calls ++ new ∧
      (∀ x ∈ new, (x = Call.captureOpen kv.2 ∨ x = Call.captureStart kv.2) ∧
        ∃ c, s.heap[kv.2]? = some c ∧ c.error.any = true) ∧
      (∀ c, s.heap[kv.2]? = some c → c.error.any = true → Call.captureOpen kv.2 ∈ new) := by
  unfold reloadOne
  cases h : s.heap[kv.2]? with
  | none => exact ⟨[], by simp⟩
  | some c =>
    by_cases hc : c.error.any = true
    · rcases hop : env.captureOpen kv.2 c with ⟨e1, r1⟩
      cases r1 with
      | some exc =>
        exact ⟨[Call.captureOpen kv.2], by simp [hc, hop, write, call, setError]⟩
      | none =>
        rcases hst : env.captureStart kv.2 { c with error := e1 } with ⟨e2, r2⟩
        refine ⟨[Call.captureOpen kv.2, Call.captureStart kv.2], ?_⟩
        cases r2 with
        | some exc => simp [hc, hop, hst, write, call, setError]
        | none =>
          by_cases he : e2.any = true
          · simp [hc, hop, hst, he, write, call, setError]
          · simp [hc, hop, hst, he, write, call, setError, emit]
    · exact ⟨[], by simp [hc]⟩

/-! ## The reload sweep -/

theorem recovers_congr (env : Env) (s t : MediaFactory) (kv : Int × Ptr)
    (h : t.heap[kv.2]? = s.heap[kv.2]?) : recovers env t kv = recovers env s kv := by
  unfold recovers
  rw [h]

theorem reloadOne_heap_self_congr (env : Env) (s t : MediaFactory) (kv : Int × Ptr)
    (h : t.heap[kv.2]? = s.heap[kv.2]?) :
    (reloadOne env t kv).heap[kv.2]? = (reloadOne env s kv).heap[kv.2]? := by
  cases hs : s.heap[kv.2]? with
  | none =>
    rw [reloadOne_of_none env s kv hs, reloadOne_of_none env t kv (h.trans hs)]
    exact h
  | some c =>
    have ht : t.heap[kv.2]? = some c := h.trans hs
    by_cases hc : c.error.any = true
    · rw [reloadOne_heap_self env s kv c hs hc, reloadOne_heap_self env t kv c ht hc]
    · have hc2 : c.error.any = false := by simpa using hc
      rw [reloadOne_of_healthy env s kv c hs hc2, reloadOne_of_healthy env t kv c ht hc2]
      exact h

theorem foldl_reloadOne_heap_frame (env : Env) (l : List (Int × Ptr)) (p : Ptr) :
    ∀ (s : MediaFactory), p ∉ l.map Prod.snd →
      (l.foldl (reloadOne env) s).heap[p]? = s.heap[p]? := by
  induction l with
  | nil => intro s _; rfl
  | cons kv rest ih =>
    intro s hp
    simp only [List.map_cons, List.mem_cons, not_or] at hp
    rw [List.foldl_cons, ih _ hp.2]
    exact reloadOne_heap_ne env s kv p hp.1

theorem foldl_reloadOne_emitted (env : Env) (l : List (Int × Ptr)) :
    ∀ (s : MediaFactory), (l.map Prod.snd).Nodup →
      (l.foldl (reloadOne env) s).emitted
        = s.emitted ++ (l.filter (recovers env s)).map
            (fun kv => Signal.VideoCaptureLoaded kv.2) := by
  induction l with
  | nil => intro s _; simp
  | cons kv rest ih =>
    intro s hnd
    simp only [List.map_cons, List.nodup_cons] at hnd
    obtain ⟨hnot, hrest⟩ := hnd
    rw [List.foldl_cons, ih _ hrest, reloadOne_emitted]
    have hcongr : rest.filter (recovers env (reloadOne env s kv))
        = rest.filter (recovers env s) := by
      apply List.filter_congr
      intro x hx
      apply recovers_congr
      apply reloadOne_heap_ne
      intro e
      exact hnot (List.mem_map.mpr ⟨x, hx, e⟩)
    rw [hcongr]
    by_cases hr : recovers env s kv = true
    · simp [hr, List.filter_cons]
    · simp [hr, List.filter_cons]

theorem foldl_reloadOne_heap_self (env : Env) (l : List (Int × Ptr)) :
    ∀ (s : MediaFactory), (l.map Prod.snd).Nodup → ∀ kv ∈ l,
      (l.foldl (reloadOne env) s).heap[kv.2]? = (reloadOne env s kv).heap[kv.2]? := by
  induction l with
  | nil => intro s _ kv hkv; simp at hkv
  | cons kv0 rest ih =>
    intro s hnd kv hkv
    simp only [List.map_cons, List.nodup_cons] at hnd
    obtain ⟨hnot, hrest⟩ := hnd
    rw [List.foldl_cons]
    rcases List.mem_cons.mp hkv with he | he
    · rw [he]
      exact foldl_reloadOne_heap_frame env rest kv0.2 _ hnot
    · rw [ih _ hrest kv he]
      apply reloadOne_heap_self_congr
      apply reloadOne_heap_ne
      intro e
      exact hnot (List.mem_map.mpr ⟨kv, he, e⟩)

theorem foldl_reloadOne_calls (env : Env) (l : List (Int × Ptr)) :
    ∀ (s : MediaFactory), (l.map Prod.snd).Nodup →
      ∃ new : List Call, (l.foldl (reloadOne env) s).calls = s.calls ++ new ∧
        ∀ x ∈ new, ∃ kv ∈ l, (x = Call.captureOpen kv.2 ∨ x = Call.captureStart kv.2) ∧
          ∃ c, s.heap[kv.2]? = some c ∧ c.error.any = true := by
  induction l with
  | nil => intro s _; exact ⟨[], by simp⟩
  | cons kv rest ih =>
    intro s hnd
    simp only [List.map_cons, List.nodup_cons] at hnd
    obtain ⟨hnot, hrest⟩ := hnd
    obtain ⟨n1, h1, h1x⟩ := reloadOne_calls env s kv
    obtain ⟨n2, h2, h2x⟩ := ih (reloadOne env s kv) hrest
    refine ⟨n1 ++ n2, by rw [List.foldl_cons, h2, h1, List.append_assoc], ?_⟩
    intro x hx
    rcases List.mem_append.mp hx with hx | hx
    · exact ⟨kv, List.mem_cons_self _ _, h1x.1 x hx⟩
    · obtain ⟨kv2, hkv2, hx2, c, hc, hce⟩ := h2x x hx
      refine ⟨kv2, List.mem_cons_of_mem _ hkv2, hx2, c, ?_, hce⟩
      rw [← hc]
      symm
      apply reloadOne_heap_ne
      intro e
      exact hnot (List.mem_map.mpr ⟨kv2, hkv2, e⟩)

theorem foldl_reloadOne_opens (env : Env) (l : List (Int × Ptr)) :
    ∀ (s : MediaFactory),
      ∃ new : List Call, (l.foldl (reloadOne env) s).calls = s.calls ++ new ∧
        ∀ kv ∈ l, ∀ c, s.heap[kv.2]? = some c → c.error.any = true →
          Call.captureOpen kv.2 ∈ new := by
  induction l with
  | nil => intro s; exact ⟨[], by simp⟩
  | cons kv rest ih =>
    intro s
    obtain ⟨n1, h1, h1x⟩ := reloadOne_calls env s kv
    obtain ⟨n2, h2, h2x⟩ := ih (reloadOne env s kv)
    refine ⟨n1 ++ n2, by rw [List.foldl_cons, h2, h1, List.append_assoc], ?_⟩
    intro kv2 hkv2 c hc hce
    by_cases hp : kv2.2 = kv.2
    · rw [hp] at hc ⊢
      exact List.mem_append_left _ (h1x.2 c hc hce)
    · have hmem : kv2 ∈ rest := by
        rcases List.mem_cons.mp hkv2 with he | he
        · exact absurd (by rw [he]) hp
        · exact he
      apply List.mem_append_right
      apply h2x kv2 hmem c _ hce
      rw [← hc]
      exact reloadOne_heap_ne env s kv kv2.2 hp

theorem count_loaded (l : List (Int × Ptr)) (g : Int × Ptr → Bool)
    (hnd : (l.map Prod.snd).Nodup) (kv : Int × Ptr) (hkv : kv ∈ l) :
    ((l.filter g).map (fun x => Signal.VideoCaptureLoaded x.2)).count
        (Signal.VideoCaptureLoaded kv.2)
      = if g kv then 1 else 0 := by
  have hsub : ((l.filter g).map Prod.snd).Nodup :=
    hnd.sublist ((List.filter_sublist l).map Prod.snd)
  have hinj : Function.Injective Signal.VideoCaptureLoaded := by
    intro a b hab
    injection hab
  have hL : ((l.filter g).map (fun x => Signal.VideoCaptureLoaded x.2)).Nodup := by
    have := hsub.map hinj
    simpa [List.map_map, Function.comp_def] using this
  by_cases hg : g kv = true
  · rw [if_pos hg]
    apply List.count_eq_one_of_mem hL
    exact List.mem_map.mpr ⟨kv, List.mem_filter.mpr ⟨hkv, hg⟩, rfl⟩
  · rw [if_neg hg]
    apply List.count_eq_zero_of_not_mem
    intro hmem
    obtain ⟨x, hx, hxe⟩ := List.mem_map.mp hmem
    obtain ⟨hxl, hgx⟩ := List.mem_filter.mp hx
    have hp : x.2 = kv.2 := by injection hxe
    have hxkv : x = kv := List.inj_on_of_nodup_map hnd hxl hkv hp
    rw [hxkv] at hgx
    exact hg hgx

/-! ## loadVideoCaptures completes -/

theorem createVideoCapture_log (env : Env) (deviceId : Int) (s : MediaFactory) :
    (createVideoCapture env deviceId s).1.log
      = s.log ++ [LogLine.creatingVideoCapture deviceId] := by
  by_cases hneg : deviceId < 0
  · rw [createVideoCapture_neg env deviceId s hneg]
    rfl
  · have h0 : 0 ≤ deviceId := not_lt.mp hneg
    cases hf : s._videoCaptures.find deviceId with
    | some p =>
      rw [createVideoCapture_tracked env deviceId s h0 p hf]
      rfl
    | none =>
      cases hc : env.newVideoCapture deviceId with
      | error exc =>
        rw [createVideoCapture_failed env deviceId s h0 hf exc hc]
        rfl
      | ok e => rw [createVideoCapture_fresh env deviceId s h0 hf e hc]

theorem loadLoop_attempts (env : Env) (devs : List Device) (d : Device)
    (hd : devs[0]? = some d) (n : Nat) :
    ∀ (s : MediaFactory),
      (loadLoop env devs n s).log.countP LogLine.isCreatingVideoCapture
        = s.log.countP LogLine.isCreatingVideoCapture + n := by
  induction n with
  | zero => intro s; rfl
  | succ n ih =>
    intro s
    unfold loadLoop
    have hlog := createVideoCapture_log env d.id s
    simp only [hd]
    split
    · next s1 exc heq =>
      rw [heq] at hlog
      have hlog1 : s1.log = s.log ++ [LogLine.creatingVideoCapture d.id] := hlog
      rw [ih]
      simp [write, hlog1, List.countP_append, List.countP_cons, LogLine.isCreatingVideoCapture]
      omega
    · next s1 r hne heq =>
      rw [heq] at hlog
      have hlog1 : s1.log = s.log ++ [LogLine.creatingVideoCapture d.id] := hlog
      rw [ih]
      simp [hlog1, List.countP_append, List.countP_cons, LogLine.isCreatingVideoCapture]
      omega

theorem recovers_write (env : Env) (s : MediaFactory) (l : LogLine) :
    recovers env (s.write l) = recovers env s := by
  funext kv
  exact recovers_congr env s (s.write l) kv rfl

theorem reloadFailedVideoCaptures_eq (env : Env) (th : Thread) (s : MediaFactory)
    (hth : th.mainID = th.currentID) :
    reloadFailedVideoCaptures env th s
      = (s._videoCaptures.foldl (reloadOne env)
          (s.write LogLine.reloadingFailedVideoCaptures), Result.ok ()) := by
  simp [reloadFailedVideoCaptures, hth, videoCaptures, write]

/-- Called on the main thread, the two bulk operations return normally whatever
the collaborators do. `loadVideoCaptures()` runs its loop body once per element
of the device list, so it logs that many `createVideoCapture` calls (for which
device is not said here). `reloadFailedVideoCaptures()` calls `open()` on every
tracked handle that was in an error state, also on those that follow a handle
whose reopen failed. -/
theorem bulk_operations_return (env : Env) (th : Thread) (s : MediaFactory)
    (hth : th.mainID = th.currentID) :
    ((loadVideoCaptures env th s).2 = Result.ok () ∧
      (loadVideoCaptures env th s).1.log.countP LogLine.isCreatingVideoCapture
        = s.log.countP LogLine.isCreatingVideoCapture
          + env.getVideoCaptureDevices.length) ∧
    ((reloadFailedVideoCaptures env th s).2 = Result.ok () ∧
      ∀ kv ∈ s._videoCaptures, ∀ c, s.heap[kv.2]? = some c → c.error.any = true →
        s.calls.count (Call.captureOpen kv.2)
          < (reloadFailedVideoCaptures env th s).1.calls.count (Call.captureOpen kv.2)) := by
  constructor
  · have hne : ¬ th.mainID ≠ th.currentID := fun h => h hth
    unfold loadVideoCaptures
    simp only [hne, if_false, true_and]
    cases hdevs : env.getVideoCaptureDevices with
    | nil => simp [loadLoop, write, call, LogLine.isCreatingVideoCapture]
    | cons d ds =>
      rw [loadLoop_attempts env (d :: ds) d (by simp)]
      simp [write, call, LogLine.isCreatingVideoCapture]
  · rw [reloadFailedVideoCaptures_eq env th s hth]
    refine ⟨rfl, ?_⟩
    intro kv hkv c hc hce
    obtain ⟨new, hnew, hopen⟩ := foldl_reloadOne_opens env s._videoCaptures
      (s.write LogLine.reloadingFailedVideoCaptures)
    have hmem : Call.captureOpen kv.2 ∈ new := hopen kv hkv c hc hce
    have hpos : 0 < new.count (Call.captureOpen kv.2) := List.count_pos_iff.mpr hmem
    show _ < List.count _ (List.foldl (reloadOne env)
      (s.write LogLine.reloadingFailedVideoCaptures) s._videoCaptures).calls
    rw [hnew, List.count_append]
    show List.count _ s.calls < List.count _ s.calls + _
    omega

/-- C6 fails on the code, by the slip of C4: with the devices 0, 1 and 2
attached and only the constructor of device 0 throwing, `loadVideoCaptures()`
called on the main thread of an empty registry returns normally, but its three
creation attempts are all for device 0: the constructor is called for device 0
three times and never for device 1 or 2, three failures of device 0 are logged,
and the map stays empty although devices 1 and 2 can be constructed. -/
theorem loadVideoCaptures_attempts_first_device_only :
    firstDeviceFailsEnv.getVideoCaptureDevices = [⟨0⟩, ⟨1⟩, ⟨2⟩] ∧
    (loadVideoCaptures firstDeviceFailsEnv mainThread empty).2 = Result.ok () ∧
    (loadVideoCaptures firstDeviceFailsEnv mainThread empty).1.calls =
      [Call.getVideoCaptureDevices, Call.newVideoCapture 0, Call.newVideoCapture 0,
       Call.newVideoCapture 0] ∧
    Call.newVideoCapture 1 ∉ (loadVideoCaptures firstDeviceFailsEnv mainThread empty).1.calls ∧
    Call.newVideoCapture 2 ∉ (loadVideoCaptures firstDeviceFailsEnv mainThread empty).1.calls ∧
    (loadVideoCaptures firstDeviceFailsEnv mainThread empty).1.log =
      [LogLine.loadingVideoCaptures,
       LogLine.creatingVideoCapture 0,
       LogLine.cannotLoadVideoCapture 0 "Cannot open the video capture device",
       LogLine.creatingVideoCapture 0,
       LogLine.cannotLoadVideoCapture 0 "Cannot open the video capture device",
       LogLine.creatingVideoCapture 0,
       LogLine.cannotLoadVideoCapture 0 "Cannot open the video capture device"] ∧
    (loadVideoCaptures firstDeviceFailsEnv mainThread empty).1._videoCaptures = [] ∧
    (createVideoCapture firstDeviceFailsEnv 1 empty).2 = Result.ok 0 := by
  refine ⟨rfl, ?_, ?_, ?_, ?_, ?_, ?_, ?_⟩ <;> decide

/-- C7: in every reachable state of the registry, the object stored under key
`k` has device id `k` and looking up `k` finds it; so when the error callback is
invoked by a tracked handle it emits exactly one signal, `VideoCaptureError`
carrying that handle, and returns. When the device id of the sender is not a
key of the map, nothing is emitted and the assertion fails. -/
theorem onVideoCaptureError_spec (s : MediaFactory) (hr : Reachable s) (err : Error) :
    (∀ kv ∈ s._videoCaptures,
      (s.heap[kv.2]?).map VideoCapture.deviceId = some kv.1 ∧
      s._videoCaptures.find kv.1 = some kv.2 ∧
      onVideoCaptureError kv.2 err s
        = ({ s with emitted := s.emitted ++ [Signal.VideoCaptureError kv.2] },
            Result.ok ())) ∧
    (∀ (sender : Ptr) (c : VideoCapture), s.heap[sender]? = some c →
      s._videoCaptures.find c.deviceId = none →
      onVideoCaptureError sender err s = (s, Result.aborted)) := by
  obtain ⟨ho, hk⟩ := inv_of_reachable hr
  constructor
  · intro kv hkv
    have h1 := hk kv hkv
    rw [List.getElem?_map] at h1
    have hfind : s._videoCaptures.find kv.1 = some kv.2 :=
      find_of_mem _ ho kv.1 kv.2 hkv
    refine ⟨h1, hfind, ?_⟩
    cases hc : s.heap[kv.2]? with
    | none => simp [hc] at h1
    | some c =>
      have hid : c.deviceId = kv.1 := by simpa [hc] using h1
      simp [onVideoCaptureError, hc, videoCaptures, hid, hfind, emit]
  · intro sender c hc hf
    simp [onVideoCaptureError, hc, videoCaptures, hf]

/-- C7, after `createVideoCapture(3)` on the empty registry: the callback
invoked by handle 0 emits `VideoCaptureError` for handle 0. -/
theorem onVideoCaptureError_spec_witness :
    Reachable (createVideoCapture healthyEnv 3 empty).1 ∧
    onVideoCaptureError 0 ⟨"unplugged"⟩ (createVideoCapture healthyEnv 3 empty).1
      = ({ (createVideoCapture healthyEnv 3 empty).1 with
            emitted := (createVideoCapture healthyEnv 3 empty).1.emitted
              ++ [Signal.VideoCaptureError 0] },
          Result.ok ()) :=
  ⟨Reachable.createVideoCapture healthyEnv 3 Reachable.init,
    ((onVideoCaptureError_spec (createVideoCapture healthyEnv 3 empty).1
      (Reachable.createVideoCapture healthyEnv 3 Reachable.init) ⟨"unplugged"⟩).1
        (3, 0) (by decide)).2.2⟩

theorem count_of_append_new {α : Type} [DecidableEq α] (old new result : List α) (x : α)
    (h : result = old ++ new) (hx : x ∉ new) : result.count x = old.count x := by
  rw [h, List.count_append, List.count_eq_zero_of_not_mem hx, Nat.add_zero]

/-- C5: called on the main thread on a registry in which no capture is stored
under two keys, one sweep of `reloadFailedVideoCaptures()` emits exactly the
signals `VideoCaptureLoaded` of the tracked handles that were in an error state
and whose reopen succeeds (`open()` and `start()` return without raising and
the error state is clear afterwards), so their number is the number of
recovered handles. For a tracked handle in error: if the reopen succeeds, its
error state is clear and one `VideoCaptureLoaded` carrying it is emitted; if
the reopen fails, no signal is emitted for it and its error state is the one
left by the call that failed, which is an error state when a raising `open()`
or `start()` leaves one. A tracked handle not in error is left as it is: no
`open()`, no `start()`, no signal. -/
theorem reloadFailedVideoCaptures_spec (env : Env) (th : Thread) (s : MediaFactory)
    (hth : th.mainID = th.currentID) (hu : s.Unaliased) :
    (reloadFailedVideoCaptures env th s).1.emitted
      = s.emitted ++ (s._videoCaptures.filter (recovers env s)).map
          (fun kv => Signal.VideoCaptureLoaded kv.2) ∧
    (reloadFailedVideoCaptures env th s).1.emitted.length
      = s.emitted.length + (s._videoCaptures.filter (recovers env s)).length ∧
    ∀ kv ∈ s._videoCaptures, ∀ c, s.heap[kv.2]? = some c →
      (c.error.any = true → reopens env kv.2 c = true →
        ((reloadFailedVideoCaptures env th s).1.heap[kv.2]?).map (fun x => x.error.any)
          = some false ∧
        (reloadFailedVideoCaptures env th s).1.emitted.count (Signal.VideoCaptureLoaded kv.2)
          = s.emitted.count (Signal.VideoCaptureLoaded kv.2) + 1) ∧
      (c.error.any = true → reopens env kv.2 c = false →
        (reloadFailedVideoCaptures env th s).1.heap[kv.2]? = some
          { c with error :=
              if (env.captureOpen kv.2 c).2.isSome then (env.captureOpen kv.2 c).1
              else (env.captureStart kv.2 { c with error := (env.captureOpen kv.2 c).1 }).1 } ∧
        (FailureKeepsError env →
          ((reloadFailedVideoCaptures env th s).1.heap[kv.2]?).map (fun x => x.error.any)
            = some true) ∧
        (reloadFailedVideoCaptures env th s).1.emitted.count (Signal.VideoCaptureLoaded kv.2)
          = s.emitted.count (Signal.VideoCaptureLoaded kv.2)) ∧
      (c.error.any = false →
        (reloadFailedVideoCaptures env th s).1.heap[kv.2]? = some c ∧
        (reloadFailedVideoCaptures env th s).1.emitted.count (Signal.VideoCaptureLoaded kv.2)
          = s.emitted.count (Signal.VideoCaptureLoaded kv.2) ∧
        (reloadFailedVideoCaptures env th s).1.calls.count (Call.captureOpen kv.2)
          = s.calls.count (Call.captureOpen kv.2) ∧
        (reloadFailedVideoCaptures env th s).1.calls.count (Call.captureStart kv.2)
          = s.calls.count (Call.captureStart kv.2)) := by
  rw [reloadFailedVideoCaptures_eq env th s hth]
  have hE := foldl_reloadOne_emitted env s._videoCaptures
    (s.write LogLine.reloadingFailedVideoCaptures) hu
  rw [recovers_write] at hE
  have hE2 : (s.write LogLine.reloadingFailedVideoCaptures).emitted = s.emitted := rfl
  rw [hE2] at hE
  refine ⟨hE, by simp [hE], ?_⟩
  intro kv hkv c hc
  have hH := foldl_reloadOne_heap_self env s._videoCaptures
    (s.write LogLine.reloadingFailedVideoCaptures) hu kv hkv
  have hc0 : (s.write LogLine.reloadingFailedVideoCaptures).heap[kv.2]? = some c := hc
  have hcount := count_loaded s._videoCaptures (recovers env s) hu kv hkv
  have hrec : recovers env s kv = (c.error.any && reopens env kv.2 c) := by
    unfold recovers
    rw [hc]
  simp only []
  refine ⟨?_, ?_, ?_⟩
  · intro hce hre
    rw [hH, reloadOne_heap_self env _ kv c hc0 hce, hE, List.count_append, hcount, hrec,
      hce, hre]
    refine ⟨?_, rfl⟩
    unfold reopens at hre
    simp only [Bool.and_eq_true, Option.isNone_iff_eq_none, Bool.not_eq_true_eq_eq_false] at hre
    simp [hre.1, hre.2.2]
  · intro hce hre
    rw [hH, reloadOne_heap_self env _ kv c hc0 hce, hE, List.count_append, hcount, hrec,
      hce, hre]
    refine ⟨rfl, ?_, rfl⟩
    intro hcontract
    obtain ⟨hopen, _⟩ := hcontract kv.2 c
    obtain ⟨_, hstart⟩ := hcontract kv.2 { c with error := (env.captureOpen kv.2 c).1 }
    simp only [Option.some.injEq, Option.map]
    by_cases ho : (env.captureOpen kv.2 c).2.isSome = true
    · rw [if_pos ho]
      exact hopen ho
    · rw [if_neg ho]
      by_cases hs : (env.captureStart kv.2
          { c with error := (env.captureOpen kv.2 c).1 }).2.isSome = true
      · exact hstart hs
      · unfold reopens at hre
        have ho2 : (env.captureOpen kv.2 c).2.isNone = true := by
          cases h : (env.captureOpen kv.2 c).2 <;> simp [h] at ho ⊢
        have hs2 : (env.captureStart kv.2
            { c with error := (env.captureOpen kv.2 c).1 }).2.isNone = true := by
          cases h : (env.captureStart kv.2
            { c with error := (env.captureOpen kv.2 c).1 }).2 <;> simp [h] at hs ⊢
        simp only [ho2, hs2, Bool.true_and, Bool.not_eq_false_eq_eq_true,
          Bool.not_eq_eq_eq_not, Bool.not_false] at hre
        exact hre
  · intro hce
    have hce2 : ¬ c.error.any = true := by simp [hce]
    rw [hH, reloadOne_of_healthy env _ kv c hc0 hce, hE, List.count_append, hcount, hrec, hce]
    refine ⟨hc, rfl, ?_, ?_⟩
    all_goals
      obtain ⟨new, hnew, hx⟩ := foldl_reloadOne_calls env s._videoCaptures
        (s.write LogLine.reloadingFailedVideoCaptures) hu
      apply count_of_append_new s.calls new _ _ hnew
      intro hmem
      obtain ⟨kv2, _, hor, c2, hc2, hc2e⟩ := hx _ hmem
      have hp : kv.2 = kv2.2 := by
        rcases hor with h | h <;> injection h
      rw [← hp] at hc2
      have hcc : c2 = c := Option.some.inj (hc2.symm.trans hc0)
      rw [hcc] at hc2e
      exact hce2 hc2e

/-- C5, on a registry whose handle 0 (device 3) is in error and whose handle 1
(device 5) is healthy, with collaborators that succeed: handle 0 is recovered
and announced once, and the sweep emits one signal. With collaborators that
fail, on a registry whose two handles are in error, handle 1 stays in error
and is not announced. -/
theorem reloadFailedVideoCaptures_spec_witness :
    mainThread.mainID = mainThread.currentID ∧ sampleFactory.Unaliased ∧
    unpluggedFactory.Unaliased ∧ FailureKeepsError failingEnv ∧
    (reloadFailedVideoCaptures healthyEnv mainThread sampleFactory).1.emitted.length
      = sampleFactory.emitted.length
        + (sampleFactory._videoCaptures.filter (recovers healthyEnv sampleFactory)).length ∧
    ((reloadFailedVideoCaptures healthyEnv mainThread sampleFactory).1.heap[0]?).map
        (fun x => x.error.any) = some false ∧
    (reloadFailedVideoCaptures healthyEnv mainThread sampleFactory).1.emitted.count
        (Signal.VideoCaptureLoaded 0)
      = sampleFactory.emitted.count (Signal.VideoCaptureLoaded 0) + 1 ∧
    ((reloadFailedVideoCaptures failingEnv mainThread unpluggedFactory).1.heap[1]?).map
        (fun x => x.error.any) = some true ∧
    (reloadFailedVideoCaptures failingEnv mainThread unpluggedFactory).1.emitted.count
        (Signal.VideoCaptureLoaded 1)
      = unpluggedFactory.emitted.count (Signal.VideoCaptureLoaded 1) :=
  have h := reloadFailedVideoCaptures_spec healthyEnv mainThread sampleFactory rfl
    (by decide)
  have h0 := (h.2.2 (3, 0) (by decide) ⟨3, "", ⟨"unplugged"⟩,
    [Delegate.onVideoCaptureError]⟩ rfl).1 (by decide) (by decide)
  have k := reloadFailedVideoCaptures_spec failingEnv mainThread unpluggedFactory rfl
    (by decide)
  have k1 := (k.2.2 (5, 1) (by decide) ⟨5, "", ⟨"unplugged"⟩,
    [Delegate.onVideoCaptureError]⟩ rfl).2.1 (by decide) (by decide)
  have hcontract : FailureKeepsError failingEnv :=
    fun _ _ => ⟨fun _ => rfl, fun _ => rfl⟩
  ⟨rfl, by decide, by decide, hcontract, h.2.1, h0.1, h0.2, k1.2.1 hcontract, k1.2.2⟩

end MediaFactory

end av
end scy
